import Mathlib

/-!
Shallow embedding of `chess-engine/engines/dqn/nnet.py` (classes `ChessNet` and
`BoardEncoder`), together with theorems settling the specification claims about it.

Conventions of the embedding:
* Floating-point tensors are modelled over `ℝ`.  A 2-D tensor is a pair of dimensions
  with an entry function (`Tensor2`); entries outside the dimensions are irrelevant and
  every statement quantifies only over in-range indices.
* Python exceptions are modelled by the inductive `PyExc`; fallible operations return
  `Except PyExc α`.  The constructors `ShapeError`, `EncodingError`, `DecodingError`
  come from the specification's error taxonomy; no code path of the source raises them
  (no such classes are defined in the source), but the constructors are needed to state
  the error-handling claims.
* Library behaviour the source relies on is embedded from the libraries' documented
  semantics: `np.argwhere(a == 1)` enumerates indices in row-major (C) order;
  `F.softmax(x, dim=0)` normalizes along dimension 0; `optim.Adam(lr=0.001)` raises
  `TypeError` because the required `params` argument is missing; assigning an
  `nn.Module` attribute before `nn.Module.__init__` has run raises `AttributeError`.
-/

/-- Python exception kinds reachable (or named by the spec) for this module.
`ShapeError`, `EncodingError` and `DecodingError` are the spec's taxonomy; the source
defines no such classes and never raises them. -/
inductive PyExc where
  | RuntimeError
  | TypeError
  | AttributeError
  | ValueError
  | KeyError
  | IndexError
  | ShapeError
  | EncodingError
  | DecodingError
deriving DecidableEq

/-- A 2-D real tensor: `rows × cols`, entries given by a function.  Entries at
out-of-range indices are irrelevant to every statement below. -/
structure Tensor2 where
  rows : Nat
  cols : Nat
  entry : Nat → Nat → ℝ

/-- A 1-D real tensor. -/
structure Tensor1 where
  len : Nat
  entry : Nat → ℝ

/-- Pointwise application of a scalar function (`F.relu`, `torch.tanh` applied to a
tensor act elementwise). -/
def Tensor2.map (f : ℝ → ℝ) (t : Tensor2) : Tensor2 :=
  ⟨t.rows, t.cols, fun n j => f (t.entry n j)⟩

/-- Flattening `tensor.view(-1)`: flatten a 2-D tensor row-major into a 1-D tensor. -/
def Tensor2.view1 (t : Tensor2) : Tensor1 :=
  ⟨t.rows * t.cols, fun k => t.entry (k / t.cols) (k % t.cols)⟩

/-- Scalar `torch.relu`: `max x 0`. -/
def relu (x : ℝ) : ℝ := max x 0

/-- An `nn.Linear(inF, outF)` layer: weight matrix `w : outF × inF` and bias `b`. -/
structure LinearLayer where
  inF : Nat
  outF : Nat
  w : Nat → Nat → ℝ
  b : Nat → ℝ

/-- The affine map computed by an `nn.Linear` layer on a batch: row `n`, output
feature `j` is `⟨w j, input row n⟩ + b j`. -/
noncomputable def layerOut (L : LinearLayer) (s : Tensor2) : Tensor2 :=
  ⟨s.rows, L.outF, fun n j => (∑ k ∈ Finset.range L.inF, L.w j k * s.entry n k) + L.b j⟩

/-- Applying `nn.Linear` to a batch `[N, width]`: torch raises `RuntimeError`
("mat1 and mat2 shapes cannot be multiplied") when `width ≠ in_features`. -/
noncomputable def LinearLayer.run (L : LinearLayer) (s : Tensor2) : Except PyExc Tensor2 :=
  if s.cols = L.inF then .ok (layerOut L s) else .error .RuntimeError

/-- Embedding of `F.softmax(x, dim=0)` on a 2-D tensor: entry `(n, i)` becomes
`exp x[n,i] / ∑_{m < rows} exp x[m,i]` — normalization runs along dimension 0
(the batch dimension), so each COLUMN sums to 1, not each row. -/
noncomputable def softmaxDim0 (t : Tensor2) : Tensor2 :=
  ⟨t.rows, t.cols, fun n i =>
    Real.exp (t.entry n i) / ∑ m ∈ Finset.range t.rows, Real.exp (t.entry m i)⟩

/-- The parameters of `ChessNet`: weights and biases of the five `nn.Linear`
submodules created in `ChessNet.__init__`. -/
structure ChessNet where
  w1 : Nat → Nat → ℝ
  b1 : Nat → ℝ
  w2 : Nat → Nat → ℝ
  b2 : Nat → ℝ
  w3 : Nat → Nat → ℝ
  b3 : Nat → ℝ
  wOut1 : Nat → Nat → ℝ
  bOut1 : Nat → ℝ
  wOut2 : Nat → Nat → ℝ
  bOut2 : Nat → ℝ

/-- Assignment `self.input_size = 13 * 64` in `ChessNet.__init__`. -/
def ChessNet.input_size : Nat := 13 * 64

/-- Assignment `self.action_size = 64 * 64` in `ChessNet.__init__`. -/
def ChessNet.action_size : Nat := 64 * 64

/-- Layer `self.fc1 = nn.Linear(self.input_size, 1024)`. -/
def ChessNet.fc1 (net : ChessNet) : LinearLayer := ⟨ChessNet.input_size, 1024, net.w1, net.b1⟩

/-- Layer `self.fc2 = nn.Linear(1024, 1024)`. -/
def ChessNet.fc2 (net : ChessNet) : LinearLayer := ⟨1024, 1024, net.w2, net.b2⟩

/-- Layer `self.fc3 = nn.Linear(1024, 1024)`. -/
def ChessNet.fc3 (net : ChessNet) : LinearLayer := ⟨1024, 1024, net.w3, net.b3⟩

/-- Layer `self.out1 = nn.Linear(1024, self.action_size)`. -/
def ChessNet.out1 (net : ChessNet) : LinearLayer :=
  ⟨1024, ChessNet.action_size, net.wOut1, net.bOut1⟩

/-- Layer `self.out2 = nn.Linear(1024, 1)`. -/
def ChessNet.out2 (net : ChessNet) : LinearLayer := ⟨1024, 1, net.wOut2, net.bOut2⟩

/-- Method `ChessNet.forward`, line for line:
`s = relu(fc1(s)); s = relu(fc2(s)); s = relu(fc3(s)); pi = relu(out1(s));
v = relu(out2(s)); return softmax(pi, dim=0), tanh(v)`.
The only shape obligations are the linear layers' input widths. -/
noncomputable def ChessNet.forward (net : ChessNet) (s : Tensor2) :
    Except PyExc (Tensor2 × Tensor2) := do
  let s1 ← net.fc1.run s
  let s1 := s1.map relu
  let s2 ← net.fc2.run s1
  let s2 := s2.map relu
  let s3 ← net.fc3.run s2
  let s3 := s3.map relu
  let piRaw ← net.out1.run s3
  let piRaw := piRaw.map relu
  let vRaw ← net.out2.run s3
  let vRaw := vRaw.map relu
  return (softmaxDim0 piRaw, vRaw.map Real.tanh)

/-- The hidden activations after the three `relu(fc·)` stages of `forward`. -/
noncomputable def hidden3 (net : ChessNet) (s : Tensor2) : Tensor2 :=
  Tensor2.map relu (layerOut net.fc3
    (Tensor2.map relu (layerOut net.fc2 (Tensor2.map relu (layerOut net.fc1 s)))))

/-- The raw (pre-softmax) policy activations `pi = relu(out1(s))` of `forward`. -/
noncomputable def policyRaw (net : ChessNet) (s : Tensor2) : Tensor2 :=
  Tensor2.map relu (layerOut net.out1 (hidden3 net s))

/-- The value activations `relu(out2(s))` of `forward`, before `tanh`. -/
noncomputable def valueRaw (net : ChessNet) (s : Tensor2) : Tensor2 :=
  Tensor2.map relu (layerOut net.out2 (hidden3 net s))

/-- Policy component of a `forward` result (junk tensor on the error branch). -/
noncomputable def policyOf (r : Except PyExc (Tensor2 × Tensor2)) : Tensor2 :=
  match r with
  | .ok p => p.1
  | .error _ => ⟨0, 0, fun _ _ => 0⟩

/-- Value component of a `forward` result (junk tensor on the error branch). -/
noncomputable def valueOf (r : Except PyExc (Tensor2 × Tensor2)) : Tensor2 :=
  match r with
  | .ok p => p.2
  | .error _ => ⟨0, 0, fun _ _ => 0⟩

/-- Method `ChessNet.loss_pi`: `-torch.sum(targets * outputs) / targets.size()[0]`;
the elementwise product is summed over ALL entries and divided by the batch size. -/
noncomputable def ChessNet.loss_pi (targets outputs : Tensor2) : ℝ :=
  -(∑ n ∈ Finset.range targets.rows, ∑ i ∈ Finset.range targets.cols,
      targets.entry n i * outputs.entry n i) / (targets.rows : ℝ)

/-- Method `ChessNet.loss_v`: `-torch.sum((targets - outputs.view(-1))**2) / targets.size()[0]`
with 1-D `targets` of length `N` and `outputs` of shape `[N, 1]`. -/
noncomputable def ChessNet.loss_v (targets : Tensor1) (outputs : Tensor2) : ℝ :=
  -(∑ n ∈ Finset.range targets.len,
      (targets.entry n - (Tensor2.view1 outputs).entry n) ^ 2) / (targets.len : ℝ)

/-- The all-zero parameter assignment, used as a concrete model instance. -/
noncomputable def zeroNet : ChessNet :=
  ⟨fun _ _ => 0, fun _ => 0, fun _ _ => 0, fun _ => 0, fun _ _ => 0, fun _ => 0,
   fun _ _ => 0, fun _ => 0, fun _ _ => 0, fun _ => 0⟩

/-- A concrete batch of one all-zero feature vector of width 832. -/
noncomputable def batchOne : Tensor2 := ⟨1, 832, fun _ _ => 0⟩

/-- A concrete batch of one all-zero row of width 5 (a wrong input width). -/
noncomputable def badWidthInput : Tensor2 := ⟨1, 5, fun _ _ => 0⟩

/-- python-chess colors: `chess.WHITE`, `chess.BLACK`. -/
inductive Color where
  | white
  | black
deriving DecidableEq

/-- A python-chess `Piece`: its color and numeric piece type
(1 pawn, 2 knight, 3 bishop, 4 rook, 5 queen, 6 king). -/
structure Piece where
  color : Color
  piece_type : Nat
deriving DecidableEq

/-- A python-chess `Move`: from-square and to-square in `0..63`, plus the promotion
piece type for promotion moves (`none` otherwise).  Distinct promotion choices of the
same pawn push are distinct legal moves sharing the same (from, to) pair. -/
structure Move where
  from_square : Nat
  to_square : Nat
  promotion : Option Nat
deriving DecidableEq

/-- The external board: per-square occupancy (`board.piece_at`), side to move
(`board.turn`) and the enumerable legal-move set (`board.legal_moves`). -/
structure Board where
  piece_at : Nat → Option Piece
  turn : Color
  legal_moves : List Move

/-- Check used to model the `KeyError` of `EncodeBoard`: every piece on the board has
a piece type in `1..6` (the keys of the dictionary `d[color]`). -/
def boardTypesOk (b : Board) : Bool :=
  (List.range 64).all fun sq =>
    match b.piece_at sq with
    | none => true
    | some p => decide (1 ≤ p.piece_type) && decide (p.piece_type ≤ 6)

/-- Check used to model the numpy `IndexError` of `EncodeLegalMoves`: every legal
move's squares are in `0..63`. -/
def movesOk (b : Board) : Bool :=
  b.legal_moves.all fun m => decide (m.from_square < 64) && decide (m.to_square < 64)

/-- One 64-entry feature map of `EncodeBoard`: the dictionary array `d[c][t]` after the
square loop has run, i.e. bit `sq` is set iff the piece `⟨c, t⟩` occupies square `sq`
(the arrays appended to `feature_maps` alias the dictionary entries, so the mutation
in the square loop is visible in the appended maps). -/
def blockOf (b : Board) (c : Color) (t : Nat) : List Nat :=
  (List.range 64).map fun sq => if b.piece_at sq = some ⟨c, t⟩ then 1 else 0

/-- The final feature map of `EncodeBoard`: `np.ones(64)` if `board.turn == chess.WHITE`,
else `np.zeros(64)`. -/
def turnBlock (b : Board) : List Nat :=
  if b.turn = Color.white then List.replicate 64 1 else List.replicate 64 0

/-- The 13 feature maps in the order `feature_maps` receives them: white piece types
1..6, black piece types 1..6 (dictionary insertion order), then the turn map. -/
def planes (b : Board) : List (List Nat) :=
  [blockOf b .white 1, blockOf b .white 2, blockOf b .white 3,
   blockOf b .white 4, blockOf b .white 5, blockOf b .white 6,
   blockOf b .black 1, blockOf b .black 2, blockOf b .black 3,
   blockOf b .black 4, blockOf b .black 5, blockOf b .black 6,
   turnBlock b]

/-- Raveling `np.stack(feature_maps).ravel()`: the concatenation of the 13 maps. -/
def encodeBoardVec (b : Board) : List Nat := (planes b).flatten

/-- Method `BoardEncoder.EncodeBoard`.  A piece whose `piece_type` is outside `1..6` makes
`d[piece.color][piece.piece_type]` raise `KeyError`; otherwise the 13-block vector is
returned. -/
def EncodeBoard (b : Board) : Except PyExc (List Nat) :=
  if boardTypesOk b then .ok (encodeBoardVec b) else .error .KeyError

/-- The flattening `from_square * 64 + to_square` shared by masks and policy outputs
(`mask.ravel()` of the 64×64 grid is row-major). -/
def movePairIdx (m : Move) : Nat := m.from_square * 64 + m.to_square

/-- The raveled 64×64 mask built by `EncodeLegalMoves`: position `from*64+to` is 1
iff some legal move has that (from, to) pair (setting an already-set cell again is a
no-op). -/
def legalMovesMask (b : Board) : List Nat :=
  (List.range 4096).map fun idx =>
    if b.legal_moves.any (fun m => movePairIdx m = idx) then 1 else 0

/-- Method `BoardEncoder.EncodeLegalMoves`.  Writing `mask[move.from_square, move.to_square] = 1`
raises numpy `IndexError` when a square is out of range; otherwise the raveled mask is
returned. -/
def EncodeLegalMoves (b : Board) : Except PyExc (List Nat) :=
  if movesOk b then .ok (legalMovesMask b) else .error .IndexError

/-- The pure decoding computation of `DecodeMoves`:
`np.argwhere(encoded.reshape(64, 64) == 1)` enumerates the indices with value 1 in
row-major order, and each flat index `idx` is the pair `(idx / 64, idx % 64)`. -/
def decodeList (encoded : List ℤ) : List (Nat × Nat) :=
  ((List.range 4096).filter fun idx => encoded.getD idx 0 = 1).map
    fun idx => (idx / 64, idx % 64)

/-- Method `BoardEncoder.DecodeMoves`.  Reshaping via `reshape(64, 64)` raises numpy `ValueError` unless the
input has exactly 4096 entries; no other validation happens — in particular entries
different from 1 are silently ignored by `== 1`. -/
def DecodeMoves (encoded : List ℤ) : Except PyExc (List (Nat × Nat)) :=
  if encoded.length = 4096 then .ok (decodeList encoded) else .error .ValueError

/-- The encode-by-setting-bits operation of the spec (and of the module's `__main__`
self-test): start from a zero 64×64 grid, set cell `(p.1, p.2)` for every pair, ravel. -/
def encodePairs (ps : List (Nat × Nat)) : List ℤ :=
  (List.range 4096).map fun idx =>
    if ps.any (fun p => p.1 * 64 + p.2 = idx) then 1 else 0

/-- A training example `(board, pi, v)` as sampled by `ChessNet.train`. -/
def TrainExample : Type := List ℝ × List ℝ × ℝ

/-- Modelled from PyTorch: `optim.Adam(lr=0.001)` omits the required positional
argument `params` (`torch.optim.Adam(params, lr=0.001, ...)`), so the call raises
`TypeError` before constructing any optimizer. -/
def adamNoParams : Except PyExc Unit := .error .TypeError

/-- The loop bound `int(len(examples) / batch_size)` of `ChessNet.train`.  For the
nonnegative magnitudes a Python list can have, `int` of the true-division quotient
equals floor division. -/
def numBatches (nExamples batchSize : Nat) : Nat := nExamples / batchSize

/-- One epoch of the `while batch_idx < int(len(examples)/batch_size)` loop, were it
ever reached: with zero iterations it completes; otherwise the first iteration calls
`self.forward(boards)` on a `torch.FloatTensor`, and `torch.from_numpy` on a tensor
raises `TypeError` (it requires a numpy array). -/
def trainEpoch (nExamples batchSize : Nat) : Except PyExc Unit :=
  if numBatches nExamples batchSize = 0 then .ok () else .error .TypeError

/-- Method `ChessNet.train(examples, batch_size, cuda)`: constructs
`optimizer = optim.Adam(lr=0.001)` first (which raises `TypeError`), then would run
exactly 10 epochs (`for epoch in range(10)` — the epoch count is hardcoded, there is
no epoch-count parameter). -/
def ChessNet.train (_net : ChessNet) (examples : List TrainExample) (batchSize : Nat)
    (_cuda : Bool) : Except PyExc Unit := do
  let _optimizer ← adamNoParams
  for _epoch in List.range 10 do
    let _ ← trainEpoch examples.length batchSize
  return ()

/-- Modelled from PyTorch's documented `nn.Module.__setattr__`: assigning a value that
is an `nn.Module` (such as `nn.Linear`) consults `self.__dict__['_modules']`, which
only exists once `nn.Module.__init__` has run; before that the assignment raises
`AttributeError` ("cannot assign module before Module.__init__() call"). -/
def setModuleAttr (moduleInitCalled : Bool) : Except PyExc Unit :=
  if moduleInitCalled then .ok () else .error .AttributeError

/-- The attribute assignments of `ChessNet.__init__`, in order.  The method never
calls `super().__init__()`, so `nn.Module.__init__` has not run; the plain-value
assignments to `input_size` and `action_size` succeed, and the first submodule
assignment `self.fc1 = nn.Linear(...)` raises. -/
def ChessNet.pyInit : Except PyExc Unit := do
  let moduleInitCalled := false
  let _ ← setModuleAttr moduleInitCalled  -- self.fc1 = nn.Linear(self.input_size, 1024)
  let _ ← setModuleAttr moduleInitCalled  -- self.fc2 = nn.Linear(1024, 1024)
  let _ ← setModuleAttr moduleInitCalled  -- self.fc3 = nn.Linear(1024, 1024)
  let _ ← setModuleAttr moduleInitCalled  -- self.out1 = nn.Linear(1024, self.action_size)
  let _ ← setModuleAttr moduleInitCalled  -- self.out2 = nn.Linear(1024, 1)
  return ()

/-- Square occupancy of the standard chess starting position (square 0 = a1, ...,
square 63 = h8; types: 1 pawn, 2 knight, 3 bishop, 4 rook, 5 queen, 6 king). -/
def startPieceAt (sq : Nat) : Option Piece :=
  if sq = 0 ∨ sq = 7 then some ⟨.white, 4⟩
  else if sq = 1 ∨ sq = 6 then some ⟨.white, 2⟩
  else if sq = 2 ∨ sq = 5 then some ⟨.white, 3⟩
  else if sq = 3 then some ⟨.white, 5⟩
  else if sq = 4 then some ⟨.white, 6⟩
  else if 8 ≤ sq ∧ sq ≤ 15 then some ⟨.white, 1⟩
  else if 48 ≤ sq ∧ sq ≤ 55 then some ⟨.black, 1⟩
  else if sq = 56 ∨ sq = 63 then some ⟨.black, 4⟩
  else if sq = 57 ∨ sq = 62 then some ⟨.black, 2⟩
  else if sq = 58 ∨ sq = 61 then some ⟨.black, 3⟩
  else if sq = 59 then some ⟨.black, 5⟩
  else if sq = 60 then some ⟨.black, 6⟩
  else none

/-- The 20 legal moves of the starting position: the 16 single and double pawn pushes
and the 4 knight moves (b1a3, b1c3, g1f3, g1h3). -/
def startMoves : List Move :=
  [⟨8, 16, none⟩, ⟨8, 24, none⟩, ⟨9, 17, none⟩, ⟨9, 25, none⟩,
   ⟨10, 18, none⟩, ⟨10, 26, none⟩, ⟨11, 19, none⟩, ⟨11, 27, none⟩,
   ⟨12, 20, none⟩, ⟨12, 28, none⟩, ⟨13, 21, none⟩, ⟨13, 29, none⟩,
   ⟨14, 22, none⟩, ⟨14, 30, none⟩, ⟨15, 23, none⟩, ⟨15, 31, none⟩,
   ⟨1, 16, none⟩, ⟨1, 18, none⟩, ⟨6, 21, none⟩, ⟨6, 23, none⟩]

/-- The standard starting position, white to move. -/
def startBoard : Board := ⟨startPieceAt, .white, startMoves⟩

/-- Occupancy of the promotion position `8/4P3/8/8/8/8/8/K6k w - -`: white king a1,
white pawn e7, black king h8. -/
def promoPieceAt (sq : Nat) : Option Piece :=
  if sq = 0 then some ⟨.white, 6⟩
  else if sq = 52 then some ⟨.white, 1⟩
  else if sq = 63 then some ⟨.black, 6⟩
  else none

/-- The 7 legal moves of the promotion position: Ka1b1, Ka1a2, Ka1b2, and the pawn
push e7e8 with each of the four promotion choices — four distinct legal moves sharing
the (from, to) pair (52, 60). -/
def promoMoves : List Move :=
  [⟨0, 1, none⟩, ⟨0, 8, none⟩, ⟨0, 9, none⟩,
   ⟨52, 60, some 5⟩, ⟨52, 60, some 4⟩, ⟨52, 60, some 3⟩, ⟨52, 60, some 2⟩]

/-- The promotion position, white to move. -/
def promoBoard : Board := ⟨promoPieceAt, .white, promoMoves⟩

/-- A terminal (checkmated) position: black king a8 mated by white king a6 and white
queen a7; black to move with zero legal moves (`8/Q7/K7/8/8/8/8/8 b - -` mirrored to
black king on a8: occupancy below).  Only the empty legal-move set matters here. -/
def matedPieceAt (sq : Nat) : Option Piece :=
  if sq = 56 then some ⟨.black, 6⟩
  else if sq = 48 then some ⟨.white, 5⟩
  else if sq = 40 then some ⟨.white, 6⟩
  else none

/-- The checkmated position: black to move, no legal moves. -/
def matedBoard : Board := ⟨matedPieceAt, .black, []⟩

/-- The pair list of the module's `__main__` self-test: e2e4 as (12, 28) and g1f3 as
(6, 21), set in that order. -/
def testPairs : List (Nat × Nat) := [(12, 28), (6, 21)]

/-- A 4096-entry array whose first entry is 2 — a value other than 0 and 1. -/
def nonBinaryInput : List ℤ := 2 :: List.replicate 4095 0

/-- A concrete training example (all-zero board features, policy target, value 0). -/
def exZero : TrainExample := ([], [], (0 : ℝ))

/-- Piece keyed by feature-map position: map `k` (for `k < 12`) holds the piece whose
color is white for `k < 6` and black otherwise, with type `k % 6 + 1` (the dictionary
iteration order of `EncodeBoard`). -/
def blockPiece (k : Nat) : Piece := if k < 6 then ⟨.white, k + 1⟩ else ⟨.black, k - 5⟩

/-- Feature-map position of the (color, type) pair in the layout of `EncodeBoard`. -/
def blockIndex (c : Color) (t : Nat) : Nat :=
  match c with
  | .white => t - 1
  | .black => t + 5

/-- A concrete `[1, 4096]` all-ones tensor (policy-shaped). -/
noncomputable def tpConc : Tensor2 := ⟨1, 4096, fun _ _ => 1⟩

/-- A concrete `[1, 1]` zero tensor (value-shaped). -/
noncomputable def ovConc : Tensor2 := ⟨1, 1, fun _ _ => 0⟩

/-- A concrete length-1 all-ones vector (value-target-shaped). -/
noncomputable def tvConc : Tensor1 := ⟨1, fun _ => 1⟩

lemma forward_eq (net : ChessNet) (s : Tensor2) (hc : s.cols = 832) :
    ChessNet.forward net s =
      .ok (softmaxDim0 (policyRaw net s), Tensor2.map Real.tanh (valueRaw net s)) := by
  have h1 : net.fc1.run s = .ok (layerOut net.fc1 s) := by
    simp [LinearLayer.run, ChessNet.fc1, ChessNet.input_size, hc]
  have h2 : net.fc2.run (Tensor2.map relu (layerOut net.fc1 s)) =
      .ok (layerOut net.fc2 (Tensor2.map relu (layerOut net.fc1 s))) := by
    simp [LinearLayer.run, ChessNet.fc2, Tensor2.map, layerOut, ChessNet.fc1]
  have h3 : net.fc3.run
        (Tensor2.map relu (layerOut net.fc2 (Tensor2.map relu (layerOut net.fc1 s)))) =
      .ok (layerOut net.fc3
        (Tensor2.map relu (layerOut net.fc2 (Tensor2.map relu (layerOut net.fc1 s))))) := by
    simp [LinearLayer.run, ChessNet.fc3, Tensor2.map, layerOut, ChessNet.fc2]
  have h4 : net.out1.run (hidden3 net s) = .ok (layerOut net.out1 (hidden3 net s)) := by
    simp [LinearLayer.run, ChessNet.out1, hidden3, Tensor2.map, layerOut, ChessNet.fc3]
  have h5 : net.out2.run (hidden3 net s) = .ok (layerOut net.out2 (hidden3 net s)) := by
    simp [LinearLayer.run, ChessNet.out2, hidden3, Tensor2.map, layerOut, ChessNet.fc3]
  simp only [ChessNet.forward, h1, h2, h3, bind, Except.bind, hidden3] at *
  simp only [h4, h5, policyRaw, valueRaw, hidden3, pure, Except.pure]

lemma softmaxDim0_entry_nonneg (t : Tensor2) (n i : Nat) :
    0 ≤ (softmaxDim0 t).entry n i := by
  apply div_nonneg (Real.exp_pos _).le
  exact Finset.sum_nonneg fun m _ => (Real.exp_pos _).le

lemma softmaxDim0_col_sum (t : Tensor2) (h : 1 ≤ t.rows) (i : Nat) :
    ∑ n ∈ Finset.range t.rows, (softmaxDim0 t).entry n i = 1 := by
  have hpos : 0 < ∑ m ∈ Finset.range t.rows, Real.exp (t.entry m i) :=
    Finset.sum_pos (fun m _ => Real.exp_pos _)
      (Finset.nonempty_range_iff.mpr (by omega))
  simp only [softmaxDim0]
  rw [← Finset.sum_div, div_self hpos.ne']

lemma tanh_relu_nonneg (x : ℝ) : 0 ≤ Real.tanh (relu x) := by
  rw [Real.tanh_eq_sinh_div_cosh]
  exact div_nonneg (Real.sinh_nonneg_iff.mpr (le_max_right x 0)) (Real.cosh_pos _).le

lemma tanh_relu_lt_one (x : ℝ) : Real.tanh (relu x) < 1 := by
  rw [Real.tanh_eq_sinh_div_cosh, div_lt_one (Real.cosh_pos _)]
  exact Real.sinh_lt_cosh _

lemma forward_badwidth (net : ChessNet) (s : Tensor2) (hc : s.cols ≠ 832) :
    ChessNet.forward net s = .error PyExc.RuntimeError := by
  have h832 : ¬ (s.cols = ChessNet.input_size) := by
    simpa [ChessNet.input_size] using hc
  have h1 : net.fc1.run s = .error .RuntimeError := by
    simp [LinearLayer.run, ChessNet.fc1, h832]
  simp [ChessNet.forward, h1, bind, Except.bind]

/-- C1 (corrected): on a batch of `N ≥ 1` rows of width 832, `forward` succeeds and
returns a policy of shape `[N, 4096]` with every entry nonnegative and a value of
shape `[N, 1]` with every entry in `[0, 1)`; but because the softmax runs along
`dim=0` (the batch dimension), it is each COLUMN of the policy (a fixed move index
across the batch) that sums to 1, not each row as the claim states. -/
theorem C1_forward_amended (net : ChessNet) (s : Tensor2)
    (hc : s.cols = 832) (hr : 1 ≤ s.rows) :
    ChessNet.forward net s =
        .ok (softmaxDim0 (policyRaw net s), Tensor2.map Real.tanh (valueRaw net s)) ∧
      (policyOf (ChessNet.forward net s)).rows = s.rows ∧
      (policyOf (ChessNet.forward net s)).cols = 4096 ∧
      (∀ n i, 0 ≤ (policyOf (ChessNet.forward net s)).entry n i) ∧
      (∀ i, ∑ n ∈ Finset.range s.rows, (policyOf (ChessNet.forward net s)).entry n i = 1) ∧
      (valueOf (ChessNet.forward net s)).rows = s.rows ∧
      (valueOf (ChessNet.forward net s)).cols = 1 ∧
      (∀ n, 0 ≤ (valueOf (ChessNet.forward net s)).entry n 0 ∧
        (valueOf (ChessNet.forward net s)).entry n 0 < 1) := by
  have hfwd := forward_eq net s hc
  rw [hfwd]
  refine ⟨rfl, rfl, rfl, ?_, ?_, rfl, rfl, ?_⟩
  · intro n i
    exact softmaxDim0_entry_nonneg _ n i
  · intro i
    have hrows : (policyRaw net s).rows = s.rows := rfl
    have h := softmaxDim0_col_sum (policyRaw net s) (by rw [hrows]; exact hr) i
    rw [hrows] at h
    exact h
  · intro n
    exact ⟨tanh_relu_nonneg _, tanh_relu_lt_one _⟩

/-- C1 counterexample: for the all-zero net on a single width-832 row, the policy ROW
sums to 4096, not 1 (softmax over `dim=0` makes every entry of a one-row batch equal
to 1), refuting "each row sums to 1". -/
theorem C1_rowsum_counterexample :
    (∑ i ∈ Finset.range 4096, (policyOf (ChessNet.forward zeroNet batchOne)).entry 0 i)
      = 4096 ∧ ((4096 : ℝ) ≠ 1) := by
  constructor
  · rw [forward_eq zeroNet batchOne rfl]
    simp only [policyOf]
    have h1 : ∀ i, (softmaxDim0 (policyRaw zeroNet batchOne)).entry 0 i = 1 := by
      intro i
      simp only [softmaxDim0]
      rw [show (policyRaw zeroNet batchOne).rows = 1 from rfl, Finset.sum_range_one]
      exact div_self (Real.exp_ne_zero _)
    rw [Finset.sum_congr rfl fun i _ => h1 i]
    simp
  · norm_num

/-- C1 witness: the amended theorem applied to the all-zero net and a concrete
one-row, width-832 batch. -/
theorem C1_forward_witness :
    batchOne.cols = 832 ∧ 1 ≤ batchOne.rows ∧
      (policyOf (ChessNet.forward zeroNet batchOne)).cols = 4096 ∧
      (valueOf (ChessNet.forward zeroNet batchOne)).cols = 1 :=
  ⟨rfl, le_refl 1, (C1_forward_amended zeroNet batchOne rfl (le_refl 1)).2.2.1,
   (C1_forward_amended zeroNet batchOne rfl (le_refl 1)).2.2.2.2.2.2.1⟩

/-- C2 (confirmed): `loss_pi` is the negative mean, over the batch, of the sum over
all 4096 move-pair indices of `target * predicted`, and `loss_v` is the negative mean
over the batch of `(target_value - predicted_value)^2` — the sign-quirked formulas
exactly as written (not log-loss, not positive squared error). -/
theorem C2_loss_formulas (tp op : Tensor2) (tv : Tensor1) (ov : Tensor2)
    (hc : tp.cols = 4096) (hvc : ov.cols = 1) :
    ChessNet.loss_pi tp op =
        -(1 / (tp.rows : ℝ)) *
          ∑ n ∈ Finset.range tp.rows, ∑ i ∈ Finset.range 4096, tp.entry n i * op.entry n i ∧
      ChessNet.loss_v tv ov =
        -(1 / (tv.len : ℝ)) *
          ∑ n ∈ Finset.range tv.len, (tv.entry n - ov.entry n 0) ^ 2 := by
  constructor
  · rw [ChessNet.loss_pi, hc]
    ring
  · rw [ChessNet.loss_v]
    have hview : ∀ n, (Tensor2.view1 ov).entry n = ov.entry n 0 := by
      intro n
      simp [Tensor2.view1, hvc, Nat.div_one, Nat.mod_one]
    simp only [hview]
    ring

/-- C2 witness: the loss formulas at concrete `[1, 4096]` and `[1, 1]` tensors. -/
theorem C2_loss_witness :
    tpConc.cols = 4096 ∧ ovConc.cols = 1 ∧
      ChessNet.loss_pi tpConc tpConc =
        -(1 / (tpConc.rows : ℝ)) *
          ∑ n ∈ Finset.range tpConc.rows, ∑ i ∈ Finset.range 4096,
            tpConc.entry n i * tpConc.entry n i ∧
      ChessNet.loss_v tvConc ovConc =
        -(1 / (tvConc.len : ℝ)) *
          ∑ n ∈ Finset.range tvConc.len, (tvConc.entry n - ovConc.entry n 0) ^ 2 :=
  ⟨rfl, rfl, (C2_loss_formulas tpConc tpConc tvConc ovConc rfl rfl).1,
   (C2_loss_formulas tpConc tpConc tvConc ovConc rfl rfl).2⟩

/-- C7 (corrected): `forward` on an input whose width is not 832 does fail, but with
the linear layer's matmul shape mismatch (`RuntimeError`), not a `ShapeError` — the
code performs no explicit input validation and defines no `ShapeError` class. -/
theorem C7_forward_wrong_width (net : ChessNet) (s : Tensor2) (hc : s.cols ≠ 832) :
    ChessNet.forward net s = .error PyExc.RuntimeError :=
  forward_badwidth net s hc

/-- C7 counterexample: on a concrete width-5 input the failure is a `RuntimeError`
from the first linear layer, which is not a `ShapeError`. -/
theorem C7_counterexample :
    badWidthInput.cols = 5 ∧
      ChessNet.forward zeroNet badWidthInput = .error PyExc.RuntimeError ∧
      (Except.error PyExc.RuntimeError : Except PyExc (Tensor2 × Tensor2)) ≠
        .error PyExc.ShapeError :=
  ⟨rfl, forward_badwidth zeroNet badWidthInput (by simp [badWidthInput]), by simp⟩

/-- C7 witness: the amended theorem applied to a concrete width-5 input. -/
theorem C7_witness :
    badWidthInput.cols ≠ 832 ∧
      ChessNet.forward zeroNet badWidthInput = .error PyExc.RuntimeError :=
  ⟨by simp [badWidthInput],
   C7_forward_wrong_width zeroNet badWidthInput (by simp [badWidthInput])⟩

/-- C10 (confirmed): every call to `ChessNet.train` raises `TypeError` at the
construction `optim.Adam(lr=0.001)` (the required `params` argument is missing),
before any minibatch step, regardless of the examples, batch size or cuda flag — so
model parameters are never updated by `train`. -/
theorem C10_train_always_raises (net : ChessNet) (examples : List TrainExample)
    (batchSize : Nat) (cuda : Bool) :
    ChessNet.train net examples batchSize cuda = .error PyExc.TypeError := rfl

/-- C9 (confirmed): `ChessNet.__init__` assigns `nn.Linear` submodules without first
calling `nn.Module.__init__`, so the first submodule assignment raises
`AttributeError` and no `ChessNet` instance can ever be constructed. -/
theorem C9_init_raises : ChessNet.pyInit = .error PyExc.AttributeError := rfl

/-- C6 (corrected): `train` has no epoch-count parameter (the epoch count is
hardcoded to 10 by `for epoch in range(10)`), and every call raises `TypeError` at
the optimizer construction before any minibatch step, so zero steps run and
parameters stay unchanged for every argument combination; the per-epoch step bound
in the code is `int(len(examples)/batch_size)` — floor division, which is 0 whenever
`batch_size > len(examples)`. -/
theorem C6_train_amended (net : ChessNet) (examples : List TrainExample)
    (batchSize : Nat) (cuda : Bool) :
    ChessNet.train net examples batchSize cuda = .error PyExc.TypeError ∧
      (examples.length < batchSize → numBatches examples.length batchSize = 0) ∧
      (0 < batchSize →
        numBatches examples.length batchSize * batchSize ≤ examples.length ∧
          examples.length < batchSize * (numBatches examples.length batchSize + 1)) := by
  refine ⟨rfl, fun h => Nat.div_eq_of_lt h, fun h => ⟨Nat.div_mul_le_self _ _, ?_⟩⟩
  exact Nat.lt_mul_div_succ _ h

/-- C6 counterexample: with one example and batch size 5 (batch size larger than the
example count) `train` still raises, refuting "performs zero steps per epoch and does
not raise". -/
theorem C6_counterexample :
    ChessNet.train zeroNet [exZero] 5 false = .error PyExc.TypeError ∧
      ([exZero] : List TrainExample).length < 5 :=
  ⟨rfl, by simp⟩

/-- C6 witness: the amended theorem applied to one example and batch size 5. -/
theorem C6_witness :
    ChessNet.train zeroNet [exZero] 5 false = .error PyExc.TypeError ∧
      numBatches ([exZero] : List TrainExample).length 5 = 0 :=
  ⟨(C6_train_amended zeroNet [exZero] 5 false).1,
   (C6_train_amended zeroNet [exZero] 5 false).2.1 (by simp)⟩

lemma blockOf_length (b : Board) (c : Color) (t : Nat) : (blockOf b c t).length = 64 := by
  simp [blockOf]

lemma turnBlock_length (b : Board) : (turnBlock b).length = 64 := by
  unfold turnBlock
  split <;> simp

lemma blockOf_getD (b : Board) (c : Color) (t : Nat) (sq : Nat) (h : sq < 64) :
    (blockOf b c t).getD sq 0 = if b.piece_at sq = some ⟨c, t⟩ then 1 else 0 := by
  simp [blockOf, List.getD_eq_getElem?_getD, List.getElem?_map, List.getElem?_range h]

lemma turnBlock_getD (b : Board) (sq : Nat) (h : sq < 64) :
    (turnBlock b).getD sq 0 = if b.turn = Color.white then 1 else 0 := by
  unfold turnBlock
  split <;>
    simp only [List.getD_eq_getElem?_getD, List.getElem?_replicate, h, if_true,
      Option.getD_some]

lemma flatten_getD_blocks :
    ∀ (L : List (List Nat)) (k sq : Nat), (∀ l ∈ L, l.length = 64) → k < L.length →
      sq < 64 → L.flatten.getD (64 * k + sq) 0 = (L.getD k []).getD sq 0 := by
  intro L
  induction L with
  | nil =>
    intro k sq _ hk _
    simp at hk
  | cons hd tl ih =>
    intro k sq hlen hk hsq
    have hhd : hd.length = 64 := hlen hd (by simp)
    cases k with
    | zero =>
      simp only [List.flatten_cons, Nat.mul_zero, Nat.zero_add]
      rw [List.getD_append _ _ _ _ (by omega)]
      rfl
    | succ k =>
      simp only [List.flatten_cons]
      rw [List.getD_append_right _ _ _ _ (by omega)]
      have harith : 64 * (k + 1) + sq - hd.length = 64 * k + sq := by omega
      rw [harith]
      exact ih k sq (fun l hl => hlen l (by simp [hl])) (by simpa using hk) hsq

lemma planes_blocks_len (b : Board) : ∀ l ∈ planes b, l.length = 64 := by
  intro l hl
  fin_cases hl <;>
    first
      | exact blockOf_length _ _ _
      | exact turnBlock_length _

lemma encodeBoardVec_length (b : Board) : (encodeBoardVec b).length = 832 := by
  simp [encodeBoardVec, List.length_flatten, planes, blockOf_length, turnBlock_length]

lemma planes_getD_k (b : Board) (k : Nat) (hk : k < 12) :
    (planes b).getD k [] = blockOf b (blockPiece k).color (blockPiece k).piece_type := by
  interval_cases k <;> rfl

lemma encodeBoardVec_getD (b : Board) (k sq : Nat) (hk : k < 12) (hsq : sq < 64) :
    (encodeBoardVec b).getD (64 * k + sq) 0 =
      if b.piece_at sq = some (blockPiece k) then 1 else 0 := by
  rw [encodeBoardVec, flatten_getD_blocks (planes b) k sq (planes_blocks_len b)
    (by simp [planes]; omega) hsq]
  rw [planes_getD_k b k hk, blockOf_getD _ _ _ _ hsq]

lemma encodeBoardVec_turn (b : Board) (sq : Nat) (hsq : sq < 64) :
    (encodeBoardVec b).getD (64 * 12 + sq) 0 = if b.turn = Color.white then 1 else 0 := by
  rw [encodeBoardVec, flatten_getD_blocks (planes b) 12 sq (planes_blocks_len b)
    (by simp [planes]) hsq]
  have h12 : (planes b).getD 12 [] = turnBlock b := rfl
  rw [h12, turnBlock_getD _ _ hsq]

/-- C3 (confirmed): for every board whose piece types are the valid `1..6`,
`EncodeBoard` returns exactly 832 values laid out as 12 blocks of 64 — block `k`
holding the indicator of the piece `blockPiece k` (white pawn..king then black
pawn..king) per square — followed by a final 64-value block that is all-1 when white
is to move and all-0 otherwise; a (color, type) pair with no pieces on the board has
an all-zero block. -/
theorem C3_encodeBoard (b : Board) (h : boardTypesOk b = true) :
    EncodeBoard b = .ok (encodeBoardVec b) ∧
      (encodeBoardVec b).length = 832 ∧
      (∀ k, k < 12 → ∀ sq, sq < 64 →
        (encodeBoardVec b).getD (64 * k + sq) 0 =
          if b.piece_at sq = some (blockPiece k) then 1 else 0) ∧
      (∀ sq, sq < 64 →
        (encodeBoardVec b).getD (64 * 12 + sq) 0 =
          if b.turn = Color.white then 1 else 0) ∧
      (∀ c t, 1 ≤ t → t ≤ 6 → (∀ sq, b.piece_at sq ≠ some ⟨c, t⟩) →
        ∀ sq, sq < 64 → (encodeBoardVec b).getD (64 * blockIndex c t + sq) 0 = 0) := by
  refine ⟨by simp [EncodeBoard, h], encodeBoardVec_length b,
    fun k hk sq hsq => encodeBoardVec_getD b k sq hk hsq,
    fun sq hsq => encodeBoardVec_turn b sq hsq, ?_⟩
  intro c t h1 h6 habs sq hsq
  have hbi : blockIndex c t < 12 := by
    cases c <;> simp only [blockIndex] <;> omega
  have hbp : blockPiece (blockIndex c t) = ⟨c, t⟩ := by
    cases c
    · simp only [blockIndex, blockPiece]
      rw [if_pos (by omega : t - 1 < 6)]
      simp only [Piece.mk.injEq, true_and]
      omega
    · simp only [blockIndex, blockPiece]
      rw [if_neg (by omega : ¬ (t + 5 < 6))]
      simp only [Piece.mk.injEq, true_and]
      omega
  rw [encodeBoardVec_getD b _ sq hbi hsq, hbp, if_neg (habs sq)]

/-- C3 witness: the theorem applied to the standard starting position. -/
theorem C3_witness :
    boardTypesOk startBoard = true ∧ (encodeBoardVec startBoard).length = 832 :=
  ⟨by decide, (C3_encodeBoard startBoard (by decide)).2.1⟩

lemma legalMovesMask_length (b : Board) : (legalMovesMask b).length = 4096 := by
  simp [legalMovesMask]

lemma legalMovesMask_getD (b : Board) (idx : Nat) (h : idx < 4096) :
    (legalMovesMask b).getD idx 0 =
      if b.legal_moves.any (fun m => movePairIdx m = idx) then 1 else 0 := by
  simp [legalMovesMask, List.getD_eq_getElem?_getD, List.getElem?_map, List.getElem?_range h]

lemma movePairIdx_lt (b : Board) (hm : movesOk b = true) (m : Move)
    (hmem : m ∈ b.legal_moves) : movePairIdx m < 4096 := by
  simp only [movesOk, List.all_eq_true] at hm
  have h2 := hm m hmem
  simp only [Bool.and_eq_true, decide_eq_true_eq] at h2
  simp only [movePairIdx]
  omega

lemma sum_range_map (f : Nat → Nat) (n : Nat) :
    ((List.range n).map f).sum = ∑ i ∈ Finset.range n, f i := rfl

lemma legalMovesMask_sum (b : Board) (hm : movesOk b = true) :
    (legalMovesMask b).sum = (b.legal_moves.map movePairIdx).toFinset.card := by
  rw [legalMovesMask]
  rw [sum_range_map]
  rw [← Finset.card_filter]
  have hset : (Finset.range 4096).filter
        (fun i => b.legal_moves.any (fun m => movePairIdx m = i) = true)
      = (b.legal_moves.map movePairIdx).toFinset := by
    apply Finset.ext
    intro i
    simp only [Finset.mem_filter, Finset.mem_range, List.mem_toFinset, List.mem_map,
      List.any_eq_true, decide_eq_true_eq]
    constructor
    · rintro ⟨-, m, hmem, hidx⟩
      exact ⟨m, hmem, hidx⟩
    · rintro ⟨m, hmem, hidx⟩
      exact ⟨hidx ▸ movePairIdx_lt b hm m hmem, m, hmem, hidx⟩
  rw [hset]

/-- C4 (corrected): for every board with in-range squares, `EncodeLegalMoves` returns
the 4096-value 0/1 mask whose bit `from*64+to` is set iff SOME legal move has that
(from, to) pair, and a board with zero legal moves yields an all-zero mask without
error; but the mask's sum equals the number of DISTINCT (from, to) pairs among the
legal moves — it equals the number of legal moves only when no two legal moves share
a pair (promotion moves share one), which does hold at the starting position (20). -/
theorem C4_legalMoves_amended (b : Board) (hm : movesOk b = true) :
    EncodeLegalMoves b = .ok (legalMovesMask b) ∧
      (legalMovesMask b).length = 4096 ∧
      (∀ idx, idx < 4096 → ((legalMovesMask b).getD idx 0 = 1 ↔
        ∃ m ∈ b.legal_moves, movePairIdx m = idx)) ∧
      (legalMovesMask b).sum = (b.legal_moves.map movePairIdx).toFinset.card ∧
      ((b.legal_moves.map movePairIdx).Nodup →
        (legalMovesMask b).sum = b.legal_moves.length) ∧
      (b.legal_moves = [] → ∀ idx, idx < 4096 → (legalMovesMask b).getD idx 0 = 0) := by
  refine ⟨by simp [EncodeLegalMoves, hm], legalMovesMask_length b, ?_,
    legalMovesMask_sum b hm, ?_, ?_⟩
  · intro idx hidx
    rw [legalMovesMask_getD b idx hidx]
    split
    · rename_i hany
      simp only [List.any_eq_true, decide_eq_true_eq] at hany
      simpa using hany
    · rename_i hany
      simp only [List.any_eq_true, decide_eq_true_eq] at hany
      constructor
      · intro h
        omega
      · intro h
        exact absurd h hany
  · intro hnd
    rw [legalMovesMask_sum b hm, List.card_toFinset, hnd.dedup, List.length_map]
  · intro hnil idx hidx
    rw [legalMovesMask_getD b idx hidx, hnil]
    simp

/-- C4 counterexample: on the promotion position (white pawn e7, four promotion moves
sharing the pair (52, 60), plus three king moves) the mask sums to 4 while the board
has 7 legal moves, refuting "the sum of the mask equals the number of legal moves". -/
theorem C4_counterexample :
    (legalMovesMask promoBoard).sum = 4 ∧ promoBoard.legal_moves.length = 7 ∧
      (4 : Nat) ≠ 7 := by
  refine ⟨?_, rfl, by decide⟩
  rw [legalMovesMask_sum promoBoard (by decide)]
  decide

/-- C4 witness: at the starting position the 20 legal moves have pairwise distinct
(from, to) pairs, and the theorem gives `sum = 20`. -/
theorem C4_witness :
    movesOk startBoard = true ∧ (legalMovesMask startBoard).sum = 20 := by
  refine ⟨by decide, ?_⟩
  have h := (C4_legalMoves_amended startBoard (by decide)).2.2.2.2.1 (by decide)
  rw [h]
  rfl

lemma encodePairs_length (ps : List (Nat × Nat)) : (encodePairs ps).length = 4096 := by
  simp [encodePairs]

lemma encodePairs_getD (ps : List (Nat × Nat)) (idx : Nat) (h : idx < 4096) :
    (encodePairs ps).getD idx 0 =
      if ps.any (fun p => p.1 * 64 + p.2 = idx) then 1 else 0 := by
  simp [encodePairs, List.getD_eq_getElem?_getD, List.getElem?_map, List.getElem?_range h]

lemma decodeList_encodePairs (ps : List (Nat × Nat)) :
    decodeList (encodePairs ps) =
      ((List.range 4096).filter fun idx => ps.any (fun p => p.1 * 64 + p.2 = idx)).map
        fun idx => (idx / 64, idx % 64) := by
  unfold decodeList
  refine congrArg (List.map _) ?_
  apply List.filter_congr
  intro idx hidx
  simp only [List.mem_range] at hidx
  rw [encodePairs_getD ps idx hidx]
  by_cases hc : ps.any (fun p => p.1 * 64 + p.2 = idx) <;> simp [hc]

/-- C5 (confirmed): for any duplicate-free list of in-range (from, to) pairs,
setting the corresponding bits and applying `DecodeMoves` succeeds and yields exactly
the same set of pairs, ordered strictly ascending by `from*64+to` (row-major over the
64×64 grid). -/
theorem C5_decode_roundtrip (ps : List (Nat × Nat))
    (hr : ∀ p ∈ ps, p.1 < 64 ∧ p.2 < 64) (_hnd : ps.Nodup) :
    DecodeMoves (encodePairs ps) = .ok (decodeList (encodePairs ps)) ∧
      (∀ q, q ∈ decodeList (encodePairs ps) ↔ q ∈ ps) ∧
      (decodeList (encodePairs ps)).Pairwise
        (fun a b => a.1 * 64 + a.2 < b.1 * 64 + b.2) := by
  refine ⟨by simp [DecodeMoves, encodePairs_length], ?_, ?_⟩
  · intro q
    rw [decodeList_encodePairs]
    simp only [List.mem_map, List.mem_filter, List.mem_range, List.any_eq_true,
      decide_eq_true_eq]
    constructor
    · rintro ⟨idx, ⟨hlt, p, hpmem, hpidx⟩, rfl⟩
      obtain ⟨hp1, hp2⟩ := hr p hpmem
      obtain ⟨p1, p2⟩ := p
      simp only at hp1 hp2 hpidx
      have h1 : idx / 64 = p1 := by omega
      have h2 : idx % 64 = p2 := by omega
      rw [h1, h2]
      exact hpmem
    · intro hq
      obtain ⟨hq1, hq2⟩ := hr q hq
      obtain ⟨q1, q2⟩ := q
      refine ⟨q1 * 64 + q2, ⟨by omega, ⟨q1, q2⟩, hq, rfl⟩, ?_⟩
      simp only at hq1 hq2
      have h1 : (q1 * 64 + q2) / 64 = q1 := by omega
      have h2 : (q1 * 64 + q2) % 64 = q2 := by omega
      rw [h1, h2]
  · rw [decodeList_encodePairs]
    refine List.Pairwise.map _ (fun a b hab => ?_) ((List.pairwise_lt_range 4096).filter _)
    simp only
    omega

set_option maxRecDepth 8000 in
/-- C5 witness: the module's own self-test pairs — bits (12, 28) and (6, 21) decode
to exactly `[(6, 21), (12, 28)]`. -/
theorem C5_witness :
    (∀ p ∈ testPairs, p.1 < 64 ∧ p.2 < 64) ∧ testPairs.Nodup ∧
      decodeList (encodePairs testPairs) = [(6, 21), (12, 28)] ∧
      (∀ q, q ∈ decodeList (encodePairs testPairs) ↔ q ∈ testPairs) := by
  refine ⟨by decide, by decide, ?_,
    (C5_decode_roundtrip testPairs (by decide) (by decide)).2.1⟩
  rw [decodeList_encodePairs]
  decide

lemma nonBinaryInput_length : nonBinaryInput.length = 4096 := by
  unfold nonBinaryInput
  rw [List.length_cons, List.length_replicate]

lemma nonBinaryInput_getD_ne_one (idx : Nat) : nonBinaryInput.getD idx 0 ≠ 1 := by
  rcases idx with _ | n
  · decide
  · simp only [nonBinaryInput, List.getD_eq_getElem?_getD, List.getElem?_cons_succ,
      List.getElem?_replicate]
    split <;> simp

/-- C8 (corrected): `DecodeMoves` performs no value validation: on any 4096-entry
input it returns normally, and entries different from 1 (including non-binary values)
behave exactly like 0 — no `DecodingError` exists in the code or is ever raised. -/
theorem C8_decode_no_validation (v : List ℤ) (h : v.length = 4096) :
    DecodeMoves v = .ok (decodeList v) ∧
      DecodeMoves v = DecodeMoves (v.map fun x => if x = 1 then (1 : ℤ) else 0) := by
  have hlen2 : (v.map fun x => if x = 1 then (1 : ℤ) else 0).length = 4096 := by
    simp [h]
  refine ⟨by simp [DecodeMoves, h], ?_⟩
  simp only [DecodeMoves, h, hlen2, if_pos]
  refine congrArg Except.ok ?_
  unfold decodeList
  refine congrArg (List.map _) ?_
  apply List.filter_congr
  intro idx hidx
  simp only [List.mem_range] at hidx
  have hvlt : idx < v.length := by omega
  rw [List.getD_eq_getElem?_getD, List.getD_eq_getElem?_getD, List.getElem?_map,
    List.getElem?_eq_getElem hvlt]
  simp only [Option.map_some', Option.getD_some]
  by_cases hx : v[idx] = 1 <;> simp [hx]

/-- C8 counterexample: a 4096-entry input whose first value is 2 (neither 0 nor 1) is
decoded to the ordinary result `[]` — `DecodeMoves` does not reject it with a
`DecodingError` (or any error). -/
theorem C8_counterexample :
    nonBinaryInput.getD 0 0 = 2 ∧ (2 : ℤ) ≠ 0 ∧ (2 : ℤ) ≠ 1 ∧
      DecodeMoves nonBinaryInput = .ok [] := by
  refine ⟨rfl, by decide, by decide, ?_⟩
  have hd : DecodeMoves nonBinaryInput = .ok (decodeList nonBinaryInput) := by
    simp [DecodeMoves, nonBinaryInput_length]
  rw [hd]
  refine congrArg Except.ok ?_
  unfold decodeList
  have hfil : (List.range 4096).filter (fun idx => nonBinaryInput.getD idx 0 = 1) = [] := by
    apply List.filter_eq_nil_iff.mpr
    intro a _
    simpa using nonBinaryInput_getD_ne_one a
  rw [hfil]
  rfl

/-- C8 witness: the amended theorem applied to the all-zero 4096-entry input. -/
theorem C8_witness :
    (List.replicate 4096 (0 : ℤ)).length = 4096 ∧
      DecodeMoves (List.replicate 4096 (0 : ℤ)) =
        DecodeMoves ((List.replicate 4096 (0 : ℤ)).map fun x => if x = 1 then 1 else 0) :=
  ⟨List.length_replicate 4096 0,
   (C8_decode_no_validation _ (List.length_replicate 4096 0)).2⟩
